import Mathlib

/-!
Verification of the cuttlefish Telegram image bot (`bot.py`) against its
natural-language specification.  The Python source is shallowly embedded:

* `parse_command_args`  — the command-argument parser (`bot.py` 167-210),
  modelled literally as the index-based while loop with in-place `pop`.
* `get_dimensions`      — the dimension resolver (`bot.py` 34-47).
* `generate_image`      — the response interpretation of the generation
  client (`bot.py` 90-123); the HTTP layer is a `status` parameter and the
  asset download is an oracle `download : String -> Option String`.
* `buildInferenceTask`  — the job payload construction (`bot.py` 59-80).
* `generate_image_direct` — the orchestrator (`bot.py` 260-318), modelled
  as the list of user-visible effects (events) it produces, with the
  per-iteration generation result supplied by an oracle.

Machine-level caveats of the embedding, noted once here: Python `int()` is
modelled for ASCII tokens without surrounding whitespace (`pyInt?`);
`str.lower()` is modelled by `pyLower` (per-character ASCII case mapping),
which agrees with Python on every comparison the code performs, since all
the compared flag literals are ASCII; exceptions from the chat transport
are outside the model.
-/

/-- Model of Python `str.lower()`: per-character ASCII case mapping. -/
def pyLower (s : String) : String := String.mk (s.data.map Char.toLower)

/-- ASCII decimal digit test, as used by CPython `int()` on ASCII input. -/
def isAsciiDigit (c : Char) : Bool := '0' ≤ c && c ≤ '9'

/-- After a first digit, CPython `int()` accepts digits with single
underscores strictly between digits. -/
def digitsOkAux : List Char → Bool
  | [] => true
  | '_' :: c :: rest => isAsciiDigit c && digitsOkAux rest
  | ['_'] => false
  | c :: rest => isAsciiDigit c && digitsOkAux rest

/-- A valid unsigned digit string for CPython `int()`: nonempty, starts
with a digit, underscores only between digits. -/
def digitsOk : List Char → Bool
  | [] => false
  | c :: rest => isAsciiDigit c && digitsOkAux rest

/-- Numeric value of an ASCII digit character. -/
def digitVal (c : Char) : Nat := c.toNat - '0'.toNat

/-- Value of a valid digit string, skipping the underscore separators. -/
def digitsToNat (cs : List Char) : Nat :=
  cs.foldl (fun acc c => if c = '_' then acc else acc * 10 + digitVal c) 0

/-- Model of CPython `int(token)` on a whitespace-free ASCII token:
optional sign, then a valid digit string; `none` models `ValueError`. -/
def pyInt? (s : String) : Option Int :=
  match s.data with
  | '+' :: rest => if digitsOk rest then some (Int.ofNat (digitsToNat rest)) else none
  | '-' :: rest => if digitsOk rest then some (-(Int.ofNat (digitsToNat rest))) else none
  | cs => if digitsOk cs then some (Int.ofNat (digitsToNat cs)) else none

/-- The clamping of the parsed `-n` count in `parse_command_args`
(`bot.py` 196-199): below 1 becomes 1, above 10 becomes 10. -/
def clampCount (v : Int) : Int :=
  if v < 1 then 1 else if v > 10 then 10 else v

/-- Literal model of the while loop of `parse_command_args` (`bot.py`
174-207): `prompt_args` is the current (mutated) list, `i` the loop index;
`List.eraseIdx` models `prompt_args.pop(i)`.  Returns
`(orientation, num_images, use_max, final token list)`. -/
def parseLoop (prompt_args : List String) (i : Nat) (o : String) (n : Int)
    (m : Bool) : String × Int × Bool × List String :=
  if h : i < prompt_args.length then
    let arg := pyLower (prompt_args.get ⟨i, h⟩)
    if arg = "--landscape" ∨ arg = "-l" then
      parseLoop (prompt_args.eraseIdx i) i "landscape" n m
    else if arg = "--portrait" ∨ arg = "-p" then
      parseLoop (prompt_args.eraseIdx i) i "portrait" n m
    else if arg = "--square" ∨ arg = "-s" then
      parseLoop (prompt_args.eraseIdx i) i "square" n m
    else if arg = "--max" ∨ arg = "-max" then
      parseLoop (prompt_args.eraseIdx i) i o n true
    else if arg = "-n" ∧ i + 1 < prompt_args.length then
      match pyInt? (prompt_args.getD (i + 1) "") with
      | some v => parseLoop ((prompt_args.eraseIdx i).eraseIdx i) i o (clampCount v) m
      | none => parseLoop prompt_args (i + 1) o n m
    else
      parseLoop prompt_args (i + 1) o n m
  else
    (o, n, m, prompt_args)
  termination_by prompt_args.length - i
  decreasing_by
  · have := List.length_eraseIdx_add_one h
    omega
  · have := List.length_eraseIdx_add_one h
    omega
  · have := List.length_eraseIdx_add_one h
    omega
  · have := List.length_eraseIdx_add_one h
    omega
  · have h1 : i < (prompt_args.eraseIdx i).length := by
      have := List.length_eraseIdx_add_one h
      omega
    have := List.length_eraseIdx_add_one h
    have := List.length_eraseIdx_add_one h1
    omega
  · omega
  · omega

/-- Model of Python `" ".join(tokens)`. -/
def joinSpace : List String → String
  | [] => ""
  | [t] => t
  | t :: rest => t ++ " " ++ joinSpace rest

/-- `parse_command_args` (`bot.py` 167-210): runs the flag-stripping loop
from index 0 with the defaults (portrait, 1 image, no `-max`), then joins
the surviving tokens with single spaces into the prompt. -/
def parse_command_args (args : List String) : String × Int × Bool × String :=
  let r := parseLoop args 0 "portrait" 1 false
  (r.1, r.2.1, r.2.2.1, joinSpace r.2.2.2)

/-- Refinement form, following the specification's description of the
parser: scan left to right; recognized flag tokens (and, for a `-n` whose
following token parses as an integer, that token too) are removed, all
other tokens are kept in order; a `-n` whose following token is absent or
not a valid integer is itself kept and the count is left unchanged. -/
def stripRecognizedFlags : List String → String → Int → Bool →
    String × Int × Bool × List String
  | [], o, n, m => (o, n, m, [])
  | a :: rest, o, n, m =>
    let arg := pyLower a
    if arg = "--landscape" ∨ arg = "-l" then
      stripRecognizedFlags rest "landscape" n m
    else if arg = "--portrait" ∨ arg = "-p" then
      stripRecognizedFlags rest "portrait" n m
    else if arg = "--square" ∨ arg = "-s" then
      stripRecognizedFlags rest "square" n m
    else if arg = "--max" ∨ arg = "-max" then
      stripRecognizedFlags rest o n true
    else if arg = "-n" then
      match _h : rest with
      | [] => (o, n, m, [a])
      | b :: rest2 =>
        match pyInt? b with
        | some v => stripRecognizedFlags rest2 o (clampCount v) m
        | none =>
          let r := stripRecognizedFlags (b :: rest2) o n m
          (r.1, r.2.1, r.2.2.1, a :: r.2.2.2)
    else
      let r := stripRecognizedFlags rest o n m
      (r.1, r.2.1, r.2.2.1, a :: r.2.2.2)
  termination_by ts _ _ _ => ts.length
  decreasing_by
    all_goals (simp only [List.length_cons]; omega)

/-- The specification-level parser: strip the recognized flags, join the
kept tokens with single spaces. -/
def parse_command_args_spec (args : List String) : String × Int × Bool × String :=
  let r := stripRecognizedFlags args "portrait" 1 false
  (r.1, r.2.1, r.2.2.1, joinSpace r.2.2.2)

/-- ASCII whitespace recognized by Python `str.split()` with no argument. -/
def isPySpace (c : Char) : Bool :=
  c = ' ' || c = '\t' || c = '\n' || c = '\r' || c = '\x0b' || c = '\x0c'

/-- Tokenizer worker for `pySplit`: `cur` holds the reversed characters of
the token being read. -/
def pySplitAux : List Char → List Char → List String
  | [], cur => if cur = [] then [] else [String.mk cur.reverse]
  | c :: rest, cur =>
    if isPySpace c then
      if cur = [] then pySplitAux rest []
      else String.mk cur.reverse :: pySplitAux rest []
    else pySplitAux rest (c :: cur)

/-- Model of Python `s.split()`: split on runs of whitespace, dropping
empty tokens. -/
def pySplit (s : String) : List String := pySplitAux s.data []

/-- Does the character list start with the pattern? -/
def charsStartWith : List Char → List Char → Bool
  | _, [] => true
  | [], _ :: _ => false
  | c :: cs, d :: ds => c == d && charsStartWith cs ds

/-- Does the character list contain the pattern as a contiguous run? -/
def charsContain : List Char → List Char → Bool
  | [], pat => pat.isEmpty
  | c :: cs, pat => charsStartWith (c :: cs) pat || charsContain cs pat

/-- Model of Python substring membership `pat in hay`. -/
def strContains (hay pat : String) : Bool := charsContain hay.data pat.data

/-- `ImageBot.get_dimensions` (`bot.py` 34-47): square is always
1024x1024; otherwise the `bfl` model family (id containing `"bfl"`) uses
1392x752 landscape / 752x1392 portrait, every other family 1344x704
landscape / 704x1344 portrait; any unrecognized orientation falls through
to the portrait branch. -/
def get_dimensions (model_id : String) (orientation : String) : Nat × Nat :=
  if pyLower orientation = "square" then (1024, 1024)
  else if strContains model_id "bfl" then
    if pyLower orientation = "landscape" then (1392, 752) else (752, 1392)
  else
    if pyLower orientation = "landscape" then (1344, 704) else (704, 1344)

/-- One JSON object of the generation API response, restricted to the
string-valued fields the code inspects; Python dict lookup is the first
matching key. -/
structure RItem where
  fields : List (String × String)
deriving DecidableEq

/-- Python `item.get(k)`. -/
def RItem.get (it : RItem) (k : String) : Option String :=
  (it.fields.find? (fun kv => kv.1 = k)).map (fun kv => kv.2)

/-- Python `k in item`. -/
def RItem.hasKey (it : RItem) (k : String) : Bool := (it.get k).isSome

/-- Shape of the parsed generation response (`bot.py` 100-110): either a
top-level JSON list of objects, or a top-level object (its own fields,
plus the list under its `"data"` key — empty when absent). -/
inductive RResp where
  | arr : List RItem → RResp
  | obj : RItem → List RItem → RResp
deriving DecidableEq

/-- The error check of `generate_image` (`bot.py` 100-107): every element
of a top-level list is tested for an `"error"` key; for a top-level
object only the object's own keys are tested. -/
def hasTopError : RResp → Bool
  | .arr items => items.any (fun it => it.hasKey "error")
  | .obj top _ => top.hasKey "error"

/-- `items_to_check` (`bot.py` 110): the list itself, or the object's
`"data"` list. -/
def itemsToCheck : RResp → List RItem
  | .arr items => items
  | .obj _ data => data

/-- The scan of `bot.py` 112-119: first element whose `taskType` is
`"imageInference"`, whose `taskUUID` matches, and whose `imageURL` is
present and truthy (non-empty); a matching element with an empty URL is
skipped and the scan continues. -/
def findImageURL (taskUuid : String) : List RItem → Option String
  | [] => none
  | it :: rest =>
    if it.get "taskType" = some "imageInference" ∧
        it.get "taskUUID" = some taskUuid ∧ it.hasKey "imageURL" then
      match it.get "imageURL" with
      | some url => if url = "" then findImageURL taskUuid rest else some url
      | none => findImageURL taskUuid rest
    else findImageURL taskUuid rest

/-- Response handling of `ImageBot.generate_image` (`bot.py` 90-123):
non-200 status is failure; then the top-level error check; then the scan
for a matching inference element, whose URL (if found) is handed to the
asset download, modelled by the oracle `download`; `none` is Python
`None`. -/
def generate_image (status : Nat) (taskUuid : String) (resp : RResp)
    (download : String → Option String) : Option String :=
  if status ≠ 200 then none
  else if hasTopError resp then none
  else
    match findImageURL taskUuid (itemsToCheck resp) with
    | some url => download url
    | none => none

/-- One entry of the model registry. -/
structure ModelCfg where
  id : String
  name : String
  supports_reference : Bool
deriving DecidableEq

/-- The fixed registry `MODELS` (`bot.py` 21-27). -/
def MODELS : List (String × ModelCfg) :=
  [("flux", ⟨"runware:101@1", "FLUX Dev", false⟩),
   ("hidream", ⟨"runware:97@2", "HiDream Pro", false⟩),
   ("kontext", ⟨"bfl:3@1", "Kontext Pro", true⟩),
   ("kontext-max", ⟨"bfl:4@1", "Kontext Max", true⟩),
   ("fast", ⟨"runware:100@1", "FLUX Schnell", false⟩)]

/-- The image-inference element of the job payload (`bot.py` 64-80);
`referenceImages = none` models the absence of the field. -/
structure InferenceTask where
  taskType : String
  taskUUID : String
  positivePrompt : String
  width : Nat
  height : Nat
  model : String
  outputFormat : String
  includeCost : Bool
  outputType : List String
  numberResults : Nat
  referenceImages : Option (List String)
deriving DecidableEq

/-- Construction of the inference element (`bot.py` 64-80): the reference
image is attached exactly when `reference_image_base64` is truthy (a
supplied, non-empty string) and the model id contains `"bfl"`, and then
as the raw string itself, unmodified (no data-URI wrapping). -/
def buildInferenceTask (prompt model_id orientation taskUuid : String)
    (ref : Option String) : InferenceTask :=
  let wh := get_dimensions model_id orientation
  { taskType := "imageInference"
    taskUUID := taskUuid
    positivePrompt := prompt
    width := wh.1
    height := wh.2
    model := model_id
    outputFormat := "JPEG"
    includeCost := true
    outputType := ["URL"]
    numberResults := 1
    referenceImages :=
      match ref with
      | some r => if r ≠ "" && strContains model_id "bfl" then some [r] else none
      | none => none }

/-- User-visible effects of the direct-generation orchestrator. -/
inductive DirectEvent where
  | usageHint
  | progressMsg
  | genCall (i : Nat)
  | photo (i : Nat)
  | failNotice
  | progressDeleted
deriving DecidableEq

/-- The generation loop of `generate_image_direct` (`bot.py` 296-314),
by remaining iteration count: each iteration calls the generation client
(`genCall i`); a truthy (non-empty) result is delivered (`photo i`), a
falsy one edits the progress message to the failure notice and returns;
after a full pass the progress message is deleted. -/
def genLoop (gen : Nat → Option String) : Nat → Nat → List DirectEvent
  | 0, _ => [DirectEvent.progressDeleted]
  | remaining + 1, i =>
    DirectEvent.genCall i ::
      (match gen i with
       | some s =>
         if s = "" then [DirectEvent.failNotice]
         else DirectEvent.photo i :: genLoop gen remaining (i + 1)
       | none => [DirectEvent.failNotice])

/-- `generate_image_direct` (`bot.py` 260-318) as its event trace: empty
argument list or empty parsed prompt yields only the usage hint; otherwise
the progress message is sent and the generation loop runs `num_images`
times from index 0, with per-iteration results supplied by `gen`. -/
def generate_image_direct (args : List String) (gen : Nat → Option String) :
    List DirectEvent :=
  if args = [] then [DirectEvent.usageHint]
  else
    let r := parse_command_args args
    if r.2.2.2 = "" then [DirectEvent.usageHint]
    else DirectEvent.progressMsg :: genLoop gen r.2.1.toNat 0

theorem get_append_cons (kept : List String) (a : String) (rest : List String)
    (h : kept.length < (kept ++ a :: rest).length) :
    (kept ++ a :: rest).get ⟨kept.length, h⟩ = a := by
  induction kept with
  | nil => rfl
  | cons c kept' ih => exact ih (by simp)

theorem eraseIdx_append_cons (kept : List String) (a : String) (rest : List String) :
    (kept ++ a :: rest).eraseIdx kept.length = kept ++ rest := by
  induction kept with
  | nil => rfl
  | cons c kept' ih => simp [List.eraseIdx, ih]

theorem getD_append_cons2 (kept : List String) (a b : String) (rest : List String) :
    (kept ++ a :: b :: rest).getD (kept.length + 1) "" = b := by
  induction kept with
  | nil => rfl
  | cons c kept' ih => simpa [List.getD] using ih

theorem parseLoop_nil (kept : List String) (o : String) (n : Int) (m : Bool) :
    parseLoop kept kept.length o n m = (o, n, m, kept) := by
  rw [parseLoop]
  simp

theorem parseLoop_strip (fuel : Nat) :
    ∀ (rest kept : List String) (o : String) (n : Int) (m : Bool),
      rest.length ≤ fuel →
      parseLoop (kept ++ rest) kept.length o n m =
        ((stripRecognizedFlags rest o n m).1,
         (stripRecognizedFlags rest o n m).2.1,
         (stripRecognizedFlags rest o n m).2.2.1,
         kept ++ (stripRecognizedFlags rest o n m).2.2.2) := by
  induction fuel with
  | zero =>
    intro rest kept o n m hlen
    have h0 : rest = [] := by
      cases rest with
      | nil => rfl
      | cons a r => simp at hlen
    subst h0
    simp [stripRecognizedFlags, parseLoop_nil]
  | succ f ih =>
    intro rest kept o n m hlen
    cases rest with
    | nil => simp [stripRecognizedFlags, parseLoop_nil]
    | cons a rest' =>
      have hlt : kept.length < (kept ++ a :: rest').length := by simp
      have hlen' : rest'.length ≤ f := by
        simp only [List.length_cons] at hlen
        omega
      rw [parseLoop, dif_pos hlt]
      simp only [get_append_cons]
      by_cases h1 : pyLower a = "--landscape" ∨ pyLower a = "-l"
      · have hs : stripRecognizedFlags (a :: rest') o n m =
            stripRecognizedFlags rest' "landscape" n m := by
          rw [stripRecognizedFlags.eq_def]
          simp only []
          rw [if_pos h1]
        rw [if_pos h1, eraseIdx_append_cons, ih rest' kept "landscape" n m hlen', hs]
      · by_cases h2 : pyLower a = "--portrait" ∨ pyLower a = "-p"
        · have hs : stripRecognizedFlags (a :: rest') o n m =
              stripRecognizedFlags rest' "portrait" n m := by
            rw [stripRecognizedFlags.eq_def]
            simp only []
            rw [if_neg h1, if_pos h2]
          rw [if_neg h1, if_pos h2, eraseIdx_append_cons,
            ih rest' kept "portrait" n m hlen', hs]
        · by_cases h3 : pyLower a = "--square" ∨ pyLower a = "-s"
          · have hs : stripRecognizedFlags (a :: rest') o n m =
                stripRecognizedFlags rest' "square" n m := by
              rw [stripRecognizedFlags.eq_def]
              simp only []
              rw [if_neg h1, if_neg h2, if_pos h3]
            rw [if_neg h1, if_neg h2, if_pos h3, eraseIdx_append_cons,
              ih rest' kept "square" n m hlen', hs]
          · by_cases h4 : pyLower a = "--max" ∨ pyLower a = "-max"
            · have hs : stripRecognizedFlags (a :: rest') o n m =
                  stripRecognizedFlags rest' o n true := by
                rw [stripRecognizedFlags.eq_def]
                simp only []
                rw [if_neg h1, if_neg h2, if_neg h3, if_pos h4]
              rw [if_neg h1, if_neg h2, if_neg h3, if_pos h4, eraseIdx_append_cons,
                ih rest' kept o n true hlen', hs]
            · by_cases h5 : pyLower a = "-n"
              · cases rest' with
                | nil =>
                  have hc : ¬(pyLower a = "-n" ∧
                      kept.length + 1 < (kept ++ a :: ([] : List String)).length) := by
                    simp
                  have hs : stripRecognizedFlags (a :: ([] : List String)) o n m =
                      (o, n, m, [a]) := by
                    rw [stripRecognizedFlags.eq_def]
                    simp only []
                    rw [if_neg h1, if_neg h2, if_neg h3, if_neg h4, if_pos h5]
                  have hl2 : kept.length + 1 = (kept ++ [a]).length := by simp
                  rw [if_neg h1, if_neg h2, if_neg h3, if_neg h4, if_neg hc, hs, hl2,
                    parseLoop_nil]
                | cons b rest2 =>
                  have hc : pyLower a = "-n" ∧
                      kept.length + 1 < (kept ++ a :: b :: rest2).length :=
                    ⟨h5, by simp⟩
                  rw [if_neg h1, if_neg h2, if_neg h3, if_neg h4, if_pos hc,
                    getD_append_cons2]
                  cases hv : pyInt? b with
                  | some v =>
                    have hs : stripRecognizedFlags (a :: b :: rest2) o n m =
                        stripRecognizedFlags rest2 o (clampCount v) m := by
                      rw [stripRecognizedFlags.eq_def]
                      simp only []
                      rw [if_neg h1, if_neg h2, if_neg h3, if_neg h4, if_pos h5]
                      simp only [hv]
                    have hrest2 : rest2.length ≤ f := by
                      simp only [List.length_cons] at hlen
                      omega
                    rw [hs, eraseIdx_append_cons, eraseIdx_append_cons]
                    simpa using ih rest2 kept o (clampCount v) m hrest2
                  | none =>
                    have hs : stripRecognizedFlags (a :: b :: rest2) o n m =
                        ((stripRecognizedFlags (b :: rest2) o n m).1,
                         (stripRecognizedFlags (b :: rest2) o n m).2.1,
                         (stripRecognizedFlags (b :: rest2) o n m).2.2.1,
                         a :: (stripRecognizedFlags (b :: rest2) o n m).2.2.2) := by
                      rw [stripRecognizedFlags.eq_def]
                      simp only []
                      rw [if_neg h1, if_neg h2, if_neg h3, if_neg h4, if_pos h5]
                      simp only [hv]
                    have hbr : (b :: rest2).length ≤ f := by
                      simp only [List.length_cons] at hlen ⊢
                      omega
                    have harr : kept ++ a :: b :: rest2 = (kept ++ [a]) ++ (b :: rest2) := by
                      simp
                    have hl2 : kept.length + 1 = (kept ++ [a]).length := by simp
                    rw [hs, harr, hl2, ih (b :: rest2) (kept ++ [a]) o n m hbr]
                    simp
              · have hc : ¬(pyLower a = "-n" ∧
                    kept.length + 1 < (kept ++ a :: rest').length) := by
                  intro h
                  exact h5 h.1
                have hs : stripRecognizedFlags (a :: rest') o n m =
                    ((stripRecognizedFlags rest' o n m).1,
                     (stripRecognizedFlags rest' o n m).2.1,
                     (stripRecognizedFlags rest' o n m).2.2.1,
                     a :: (stripRecognizedFlags rest' o n m).2.2.2) := by
                  rw [stripRecognizedFlags.eq_def]
                  simp only []
                  rw [if_neg h1, if_neg h2, if_neg h3, if_neg h4, if_neg h5]
                have harr : kept ++ a :: rest' = (kept ++ [a]) ++ rest' := by simp
                have hl2 : kept.length + 1 = (kept ++ [a]).length := by simp
                rw [if_neg h1, if_neg h2, if_neg h3, if_neg h4, if_neg hc, hs, harr, hl2,
                  ih rest' (kept ++ [a]) o n m hlen']
                simp

/-- The literal loop model and the specification-level strip agree; the
loop is started with empty processed prefix. -/
theorem parse_eq_spec (args : List String) :
    parse_command_args args = parse_command_args_spec args := by
  have h := parseLoop_strip args.length args [] "portrait" 1 false (Nat.le_refl _)
  simp only [List.nil_append, List.length_nil] at h
  simp [parse_command_args, parse_command_args_spec, h]

/-- One-step unfolding: orientation flag `--landscape`/`-l`. -/
theorem strip_cons_landscape (a : String) (rest : List String) (o : String)
    (n : Int) (m : Bool) (h : pyLower a = "--landscape" ∨ pyLower a = "-l") :
    stripRecognizedFlags (a :: rest) o n m = stripRecognizedFlags rest "landscape" n m := by
  rw [stripRecognizedFlags.eq_def]
  simp only []
  rw [if_pos h]

/-- One-step unfolding: orientation flag `--portrait`/`-p`. -/
theorem strip_cons_portrait (a : String) (rest : List String) (o : String)
    (n : Int) (m : Bool) (h1 : ¬(pyLower a = "--landscape" ∨ pyLower a = "-l"))
    (h2 : pyLower a = "--portrait" ∨ pyLower a = "-p") :
    stripRecognizedFlags (a :: rest) o n m = stripRecognizedFlags rest "portrait" n m := by
  rw [stripRecognizedFlags.eq_def]
  simp only []
  rw [if_neg h1, if_pos h2]

/-- One-step unfolding: orientation flag `--square`/`-s`. -/
theorem strip_cons_square (a : String) (rest : List String) (o : String)
    (n : Int) (m : Bool) (h1 : ¬(pyLower a = "--landscape" ∨ pyLower a = "-l"))
    (h2 : ¬(pyLower a = "--portrait" ∨ pyLower a = "-p"))
    (h3 : pyLower a = "--square" ∨ pyLower a = "-s") :
    stripRecognizedFlags (a :: rest) o n m = stripRecognizedFlags rest "square" n m := by
  rw [stripRecognizedFlags.eq_def]
  simp only []
  rw [if_neg h1, if_neg h2, if_pos h3]

/-- One-step unfolding: the `--max`/`-max` flag. -/
theorem strip_cons_max (a : String) (rest : List String) (o : String)
    (n : Int) (m : Bool) (h1 : ¬(pyLower a = "--landscape" ∨ pyLower a = "-l"))
    (h2 : ¬(pyLower a = "--portrait" ∨ pyLower a = "-p"))
    (h3 : ¬(pyLower a = "--square" ∨ pyLower a = "-s"))
    (h4 : pyLower a = "--max" ∨ pyLower a = "-max") :
    stripRecognizedFlags (a :: rest) o n m = stripRecognizedFlags rest o n true := by
  rw [stripRecognizedFlags.eq_def]
  simp only []
  rw [if_neg h1, if_neg h2, if_neg h3, if_pos h4]

/-- One-step unfolding: a trailing `-n` with no following token is kept. -/
theorem strip_n_last (a : String) (o : String) (n : Int) (m : Bool)
    (h1 : ¬(pyLower a = "--landscape" ∨ pyLower a = "-l"))
    (h2 : ¬(pyLower a = "--portrait" ∨ pyLower a = "-p"))
    (h3 : ¬(pyLower a = "--square" ∨ pyLower a = "-s"))
    (h4 : ¬(pyLower a = "--max" ∨ pyLower a = "-max"))
    (h5 : pyLower a = "-n") :
    stripRecognizedFlags [a] o n m = (o, n, m, [a]) := by
  rw [stripRecognizedFlags.eq_def]
  simp only []
  rw [if_neg h1, if_neg h2, if_neg h3, if_neg h4, if_pos h5]

/-- One-step unfolding: `-n` followed by a valid integer token consumes
both and clamps the count. -/
theorem strip_n_int (a b : String) (rest2 : List String) (o : String)
    (n : Int) (m : Bool) (v : Int)
    (h1 : ¬(pyLower a = "--landscape" ∨ pyLower a = "-l"))
    (h2 : ¬(pyLower a = "--portrait" ∨ pyLower a = "-p"))
    (h3 : ¬(pyLower a = "--square" ∨ pyLower a = "-s"))
    (h4 : ¬(pyLower a = "--max" ∨ pyLower a = "-max"))
    (h5 : pyLower a = "-n") (hv : pyInt? b = some v) :
    stripRecognizedFlags (a :: b :: rest2) o n m =
      stripRecognizedFlags rest2 o (clampCount v) m := by
  rw [stripRecognizedFlags.eq_def]
  simp only []
  rw [if_neg h1, if_neg h2, if_neg h3, if_neg h4, if_pos h5]
  simp only [hv]

/-- One-step unfolding: `-n` followed by a non-integer token is kept. -/
theorem strip_n_notint (a b : String) (rest2 : List String) (o : String)
    (n : Int) (m : Bool)
    (h1 : ¬(pyLower a = "--landscape" ∨ pyLower a = "-l"))
    (h2 : ¬(pyLower a = "--portrait" ∨ pyLower a = "-p"))
    (h3 : ¬(pyLower a = "--square" ∨ pyLower a = "-s"))
    (h4 : ¬(pyLower a = "--max" ∨ pyLower a = "-max"))
    (h5 : pyLower a = "-n") (hv : pyInt? b = none) :
    stripRecognizedFlags (a :: b :: rest2) o n m =
      ((stripRecognizedFlags (b :: rest2) o n m).1,
       (stripRecognizedFlags (b :: rest2) o n m).2.1,
       (stripRecognizedFlags (b :: rest2) o n m).2.2.1,
       a :: (stripRecognizedFlags (b :: rest2) o n m).2.2.2) := by
  rw [stripRecognizedFlags.eq_def]
  simp only []
  rw [if_neg h1, if_neg h2, if_neg h3, if_neg h4, if_pos h5]
  simp only [hv]

/-- One-step unfolding: an unrecognized token is kept. -/
theorem strip_cons_keep (a : String) (rest : List String) (o : String)
    (n : Int) (m : Bool)
    (h1 : ¬(pyLower a = "--landscape" ∨ pyLower a = "-l"))
    (h2 : ¬(pyLower a = "--portrait" ∨ pyLower a = "-p"))
    (h3 : ¬(pyLower a = "--square" ∨ pyLower a = "-s"))
    (h4 : ¬(pyLower a = "--max" ∨ pyLower a = "-max"))
    (h5 : ¬pyLower a = "-n") :
    stripRecognizedFlags (a :: rest) o n m =
      ((stripRecognizedFlags rest o n m).1,
       (stripRecognizedFlags rest o n m).2.1,
       (stripRecognizedFlags rest o n m).2.2.1,
       a :: (stripRecognizedFlags rest o n m).2.2.2) := by
  rw [stripRecognizedFlags.eq_def]
  simp only []
  rw [if_neg h1, if_neg h2, if_neg h3, if_neg h4, if_neg h5]

/-- The nil equation of the strip function. -/
theorem strip_nil (o : String) (n : Int) (m : Bool) :
    stripRecognizedFlags [] o n m = (o, n, m, []) := by
  rw [stripRecognizedFlags.eq_def]

theorem clampCount_bounds (v : Int) : 1 ≤ clampCount v ∧ clampCount v ≤ 10 := by
  simp only [clampCount]
  split <;> [omega; (split <;> omega)]

theorem strip_count_bounds (ts : List String) (o : String) (n : Int) (m : Bool) :
    1 ≤ n → n ≤ 10 →
    1 ≤ (stripRecognizedFlags ts o n m).2.1 ∧ (stripRecognizedFlags ts o n m).2.1 ≤ 10 := by
  induction ts, o, n, m using stripRecognizedFlags.induct with
  | case1 o n m =>
    intro ha hb
    rw [strip_nil]
    exact ⟨ha, hb⟩
  | case2 a rest o n m arg h ih =>
    intro ha hb
    rw [strip_cons_landscape a rest o n m h]
    exact ih ha hb
  | case3 a rest o n m arg h1 h2 ih =>
    intro ha hb
    rw [strip_cons_portrait a rest o n m h1 h2]
    exact ih ha hb
  | case4 a rest o n m arg h1 h2 h3 ih =>
    intro ha hb
    rw [strip_cons_square a rest o n m h1 h2 h3]
    exact ih ha hb
  | case5 a rest o n m arg h1 h2 h3 h4 ih =>
    intro ha hb
    rw [strip_cons_max a rest o n m h1 h2 h3 h4]
    exact ih ha hb
  | case6 a o n m arg h1 h2 h3 h4 h5 =>
    intro ha hb
    rw [strip_n_last a o n m h1 h2 h3 h4 h5]
    exact ⟨ha, hb⟩
  | case7 a o n m arg h1 h2 h3 h4 h5 b rest2 v hv ih =>
    intro _ _
    rw [strip_n_int a b rest2 o n m v h1 h2 h3 h4 h5 hv]
    exact ih (clampCount_bounds v).1 (clampCount_bounds v).2
  | case8 a o n m arg h1 h2 h3 h4 h5 b rest2 hv ih =>
    intro ha hb
    rw [strip_n_notint a b rest2 o n m h1 h2 h3 h4 h5 hv]
    exact ih ha hb
  | case9 a rest o n m arg h1 h2 h3 h4 h5 ih =>
    intro ha hb
    rw [strip_cons_keep a rest o n m h1 h2 h3 h4 h5]
    exact ih ha hb

/-- A token that none of the parser's flag tests recognizes. -/
def unrecognizedToken (t : String) : Prop :=
  ¬(pyLower t = "--landscape" ∨ pyLower t = "-l") ∧
  ¬(pyLower t = "--portrait" ∨ pyLower t = "-p") ∧
  ¬(pyLower t = "--square" ∨ pyLower t = "-s") ∧
  ¬(pyLower t = "--max" ∨ pyLower t = "-max") ∧
  pyLower t ≠ "-n"

instance (t : String) : Decidable (unrecognizedToken t) := by
  unfold unrecognizedToken
  infer_instance

theorem strip_orientation_mem (ts : List String) (o : String) (n : Int) (m : Bool) :
    (stripRecognizedFlags ts o n m).1 = o ∨
    (stripRecognizedFlags ts o n m).1 = "landscape" ∨
    (stripRecognizedFlags ts o n m).1 = "portrait" ∨
    (stripRecognizedFlags ts o n m).1 = "square" := by
  induction ts, o, n, m using stripRecognizedFlags.induct with
  | case1 o n m => rw [strip_nil]; tauto
  | case2 a rest o n m arg h ih => rw [strip_cons_landscape a rest o n m h]; tauto
  | case3 a rest o n m arg h1 h2 ih => rw [strip_cons_portrait a rest o n m h1 h2]; tauto
  | case4 a rest o n m arg h1 h2 h3 ih => rw [strip_cons_square a rest o n m h1 h2 h3]; tauto
  | case5 a rest o n m arg h1 h2 h3 h4 ih => rw [strip_cons_max a rest o n m h1 h2 h3 h4]; tauto
  | case6 a o n m arg h1 h2 h3 h4 h5 => rw [strip_n_last a o n m h1 h2 h3 h4 h5]; tauto
  | case7 a o n m arg h1 h2 h3 h4 h5 b rest2 v hv ih =>
    rw [strip_n_int a b rest2 o n m v h1 h2 h3 h4 h5 hv]; tauto
  | case8 a o n m arg h1 h2 h3 h4 h5 b rest2 hv ih =>
    rw [strip_n_notint a b rest2 o n m h1 h2 h3 h4 h5 hv]; tauto
  | case9 a rest o n m arg h1 h2 h3 h4 h5 ih =>
    rw [strip_cons_keep a rest o n m h1 h2 h3 h4 h5]; tauto

theorem strip_orientation_default (ts : List String) (o : String) (n : Int) (m : Bool) :
    (∀ t ∈ ts, ¬(pyLower t = "--landscape" ∨ pyLower t = "-l") ∧
               ¬(pyLower t = "--portrait" ∨ pyLower t = "-p") ∧
               ¬(pyLower t = "--square" ∨ pyLower t = "-s")) →
    (stripRecognizedFlags ts o n m).1 = o := by
  induction ts, o, n, m using stripRecognizedFlags.induct with
  | case1 o n m => intro _; rw [strip_nil]
  | case2 a rest o n m arg h ih =>
    intro hall
    exact absurd h (hall a (List.mem_cons_self a rest)).1
  | case3 a rest o n m arg h1 h2 ih =>
    intro hall
    exact absurd h2 (hall a (List.mem_cons_self a rest)).2.1
  | case4 a rest o n m arg h1 h2 h3 ih =>
    intro hall
    exact absurd h3 (hall a (List.mem_cons_self a rest)).2.2
  | case5 a rest o n m arg h1 h2 h3 h4 ih =>
    intro hall
    rw [strip_cons_max a rest o n m h1 h2 h3 h4]
    exact ih fun t ht => hall t (List.mem_cons_of_mem a ht)
  | case6 a o n m arg h1 h2 h3 h4 h5 =>
    intro _
    rw [strip_n_last a o n m h1 h2 h3 h4 h5]
  | case7 a o n m arg h1 h2 h3 h4 h5 b rest2 v hv ih =>
    intro hall
    rw [strip_n_int a b rest2 o n m v h1 h2 h3 h4 h5 hv]
    exact ih fun t ht =>
      hall t (List.mem_cons_of_mem a (List.mem_cons_of_mem b ht))
  | case8 a o n m arg h1 h2 h3 h4 h5 b rest2 hv ih =>
    intro hall
    rw [strip_n_notint a b rest2 o n m h1 h2 h3 h4 h5 hv]
    exact ih fun t ht => hall t (List.mem_cons_of_mem a ht)
  | case9 a rest o n m arg h1 h2 h3 h4 h5 ih =>
    intro hall
    rw [strip_cons_keep a rest o n m h1 h2 h3 h4 h5]
    exact ih fun t ht => hall t (List.mem_cons_of_mem a ht)

theorem strip_kept_sub (ts : List String) (o : String) (n : Int) (m : Bool) :
    (∀ t ∈ ts, pyLower t ≠ "-n") →
    ∀ t ∈ (stripRecognizedFlags ts o n m).2.2.2, t ∈ ts ∧ unrecognizedToken t := by
  induction ts, o, n, m using stripRecognizedFlags.induct with
  | case1 o n m =>
    intro _ t ht
    rw [strip_nil] at ht
    simp at ht
  | case2 a rest o n m arg h ih =>
    intro hall t ht
    rw [strip_cons_landscape a rest o n m h] at ht
    have := ih (fun t ht => hall t (List.mem_cons_of_mem a ht)) t ht
    exact ⟨List.mem_cons_of_mem a this.1, this.2⟩
  | case3 a rest o n m arg h1 h2 ih =>
    intro hall t ht
    rw [strip_cons_portrait a rest o n m h1 h2] at ht
    have := ih (fun t ht => hall t (List.mem_cons_of_mem a ht)) t ht
    exact ⟨List.mem_cons_of_mem a this.1, this.2⟩
  | case4 a rest o n m arg h1 h2 h3 ih =>
    intro hall t ht
    rw [strip_cons_square a rest o n m h1 h2 h3] at ht
    have := ih (fun t ht => hall t (List.mem_cons_of_mem a ht)) t ht
    exact ⟨List.mem_cons_of_mem a this.1, this.2⟩
  | case5 a rest o n m arg h1 h2 h3 h4 ih =>
    intro hall t ht
    rw [strip_cons_max a rest o n m h1 h2 h3 h4] at ht
    have := ih (fun t ht => hall t (List.mem_cons_of_mem a ht)) t ht
    exact ⟨List.mem_cons_of_mem a this.1, this.2⟩
  | case6 a o n m arg h1 h2 h3 h4 h5 =>
    intro hall t ht
    exact absurd h5 (hall a (List.mem_cons_self a []))
  | case7 a o n m arg h1 h2 h3 h4 h5 b rest2 v hv ih =>
    intro hall t ht
    exact absurd h5 (hall a (List.mem_cons_self a (b :: rest2)))
  | case8 a o n m arg h1 h2 h3 h4 h5 b rest2 hv ih =>
    intro hall t ht
    exact absurd h5 (hall a (List.mem_cons_self a (b :: rest2)))
  | case9 a rest o n m arg h1 h2 h3 h4 h5 ih =>
    intro hall t ht
    rw [strip_cons_keep a rest o n m h1 h2 h3 h4 h5] at ht
    rcases List.mem_cons.mp ht with rfl | ht2
    · exact ⟨List.mem_cons_self t rest, h1, h2, h3, h4, h5⟩
    · have := ih (fun u hu => hall u (List.mem_cons_of_mem a hu)) t ht2
      exact ⟨List.mem_cons_of_mem a this.1, this.2⟩

theorem strip_id_of_unrecognized (ts : List String) (o : String) (n : Int) (m : Bool) :
    (∀ t ∈ ts, unrecognizedToken t) →
    stripRecognizedFlags ts o n m = (o, n, m, ts) := by
  induction ts, o, n, m using stripRecognizedFlags.induct with
  | case1 o n m => intro _; rw [strip_nil]
  | case2 a rest o n m arg h ih =>
    intro hall
    exact absurd h (hall a (List.mem_cons_self a rest)).1
  | case3 a rest o n m arg h1 h2 ih =>
    intro hall
    exact absurd h2 (hall a (List.mem_cons_self a rest)).2.1
  | case4 a rest o n m arg h1 h2 h3 ih =>
    intro hall
    exact absurd h3 (hall a (List.mem_cons_self a rest)).2.2.1
  | case5 a rest o n m arg h1 h2 h3 h4 ih =>
    intro hall
    exact absurd h4 (hall a (List.mem_cons_self a rest)).2.2.2.1
  | case6 a o n m arg h1 h2 h3 h4 h5 =>
    intro hall
    exact absurd h5 (hall a (List.mem_cons_self a [])).2.2.2.2
  | case7 a o n m arg h1 h2 h3 h4 h5 b rest2 v hv ih =>
    intro hall
    exact absurd h5 (hall a (List.mem_cons_self a (b :: rest2))).2.2.2.2
  | case8 a o n m arg h1 h2 h3 h4 h5 b rest2 hv ih =>
    intro hall
    exact absurd h5 (hall a (List.mem_cons_self a (b :: rest2))).2.2.2.2
  | case9 a rest o n m arg h1 h2 h3 h4 h5 ih =>
    intro hall
    rw [strip_cons_keep a rest o n m h1 h2 h3 h4 h5,
      ih fun t ht => hall t (List.mem_cons_of_mem a ht)]

theorem pySplitAux_no_space (cs : List Char) :
    ∀ (cur rest : List Char), (∀ c ∈ cs, isPySpace c = false) →
    pySplitAux (cs ++ rest) cur = pySplitAux rest (cs.reverse ++ cur) := by
  induction cs with
  | nil => intro cur rest _; simp
  | cons c cs' ih =>
    intro cur rest hall
    have hc : isPySpace c = false := hall c (List.mem_cons_self c cs')
    rw [List.cons_append, pySplitAux]
    rw [hc]
    simp only [Bool.false_eq_true, if_false]
    rw [ih (c :: cur) rest (fun d hd => hall d (List.mem_cons_of_mem c hd))]
    simp

theorem pySplit_joinSpace (ts : List String) :
    (∀ t ∈ ts, t ≠ "" ∧ ∀ c ∈ t.data, isPySpace c = false) →
    pySplit (joinSpace ts) = ts := by
  induction ts with
  | nil => intro _; rfl
  | cons t rest ih =>
    intro hall
    have ht := hall t (List.mem_cons_self t rest)
    have htd : t.data ≠ [] := by
      intro hd
      exact ht.1 (by cases t; simp_all)
    cases rest with
    | nil =>
      have h := pySplitAux_no_space t.data [] [] (by simpa using ht.2)
      simp only [List.append_nil] at h
      show pySplitAux t.data [] = [t]
      rw [h, pySplitAux]
      rw [if_neg (by simpa using htd)]
      simp
    | cons r rs =>
      show pySplitAux (joinSpace (t :: r :: rs)).data [] = t :: r :: rs
      have hjd : (joinSpace (t :: r :: rs)).data =
          t.data ++ (' ' :: (joinSpace (r :: rs)).data) := by
        show (t ++ " " ++ joinSpace (r :: rs)).data = _
        rw [String.data_append, String.data_append, List.append_assoc]
        rfl
      rw [hjd, pySplitAux_no_space t.data [] _ (by simpa using ht.2), pySplitAux]
      have hsp : isPySpace ' ' = true := rfl
      rw [hsp]
      simp only [if_true]
      rw [if_neg (by simpa using htd)]
      have h2 := ih (fun u hu => hall u (List.mem_cons_of_mem t hu))
      simp only [List.append_nil, List.reverse_reverse]
      exact congrArg (List.cons t) h2

theorem genLoop_all_ok (remaining : Nat) :
    ∀ (i : Nat) (gen : Nat → Option String),
      (∀ j, i ≤ j → j < i + remaining → ∃ s, gen j = some s ∧ s ≠ "") →
      genLoop gen remaining i =
        ((List.range' i remaining).map
          (fun j => [DirectEvent.genCall j, DirectEvent.photo j])).flatten ++
          [DirectEvent.progressDeleted] := by
  induction remaining with
  | zero => intro i gen _; rfl
  | succ k ih =>
    intro i gen hall
    obtain ⟨s, hs, hne⟩ := hall i (Nat.le_refl i) (by omega)
    rw [genLoop, hs]
    simp only []
    rw [if_neg hne]
    rw [ih (i + 1) gen (fun j hj1 hj2 => hall j (by omega) (by omega))]
    rw [List.range'_succ i k 1]
    simp

theorem genLoop_fail (remaining : Nat) :
    ∀ (i j : Nat) (gen : Nat → Option String),
      i ≤ j → j < i + remaining →
      (∀ l, i ≤ l → l < j → ∃ s, gen l = some s ∧ s ≠ "") →
      (gen j = none ∨ gen j = some "") →
      genLoop gen remaining i =
        ((List.range' i (j - i)).map
          (fun l => [DirectEvent.genCall l, DirectEvent.photo l])).flatten ++
          [DirectEvent.genCall j, DirectEvent.failNotice] := by
  induction remaining with
  | zero => intro i j gen h1 h2 _ _; omega
  | succ k ih =>
    intro i j gen hij hjlt hallok hfail
    rcases Nat.eq_or_lt_of_le hij with rfl | hlt
    · have : i - i = 0 := by omega
      rw [this]
      rcases hfail with hf | hf
      · rw [genLoop, hf]
        rfl
      · rw [genLoop, hf]
        simp
    · obtain ⟨s, hs, hne⟩ := hallok i (Nat.le_refl i) hlt
      rw [genLoop, hs]
      simp only []
      rw [if_neg hne]
      rw [ih (i + 1) j gen (by omega) (by omega)
        (fun l hl1 hl2 => hallok l (by omega) hl2) hfail]
      have hji : j - i = (j - (i + 1)) + 1 := by omega
      rw [hji, List.range'_succ i _ 1]
      simp

theorem findImageURL_sound (taskUuid : String) (items : List RItem) (url : String) :
    findImageURL taskUuid items = some url →
    ∃ it ∈ items, it.get "taskType" = some "imageInference" ∧
      it.get "taskUUID" = some taskUuid ∧ it.get "imageURL" = some url ∧ url ≠ "" := by
  induction items with
  | nil => intro h; simp [findImageURL] at h
  | cons it rest ih =>
    intro h
    rw [findImageURL] at h
    by_cases hc : it.get "taskType" = some "imageInference" ∧
        it.get "taskUUID" = some taskUuid ∧ (it.hasKey "imageURL") = true
    · rw [if_pos hc] at h
      rcases hu : it.get "imageURL" with _ | u
      · rw [hu] at h
        simp only [] at h
        obtain ⟨x, hx, hprops⟩ := ih h
        exact ⟨x, List.mem_cons_of_mem it hx, hprops⟩
      · rw [hu] at h
        simp only [] at h
        by_cases hemp : u = ""
        · rw [if_pos hemp] at h
          obtain ⟨x, hx, hprops⟩ := ih h
          exact ⟨x, List.mem_cons_of_mem it hx, hprops⟩
        · rw [if_neg hemp] at h
          have : u = url := by
            injection h
          subst this
          exact ⟨it, List.mem_cons_self it rest, hc.1, hc.2.1, hu, hemp⟩
    · rw [if_neg hc] at h
      obtain ⟨x, hx, hprops⟩ := ih h
      exact ⟨x, List.mem_cons_of_mem it hx, hprops⟩

/-- A token whose lowercase form is one of the six orientation flags. -/
def isOrientationFlagToken (t : String) : Bool :=
  pyLower t = "--landscape" || pyLower t = "-l" ||
  pyLower t = "--portrait" || pyLower t = "-p" ||
  pyLower t = "--square" || pyLower t = "-s"

/-- C3: for every token sequence the parser removes every recognized flag
token (orientation flags, `--max`/`-max`, and `-n` together with its
integer argument) from the token stream and rejoins the remaining tokens
with single spaces to form the prompt (stated as agreement with the
specification-level strip-and-rejoin function); a `-n` whose following
token is absent (`["-n"]`) or not a valid integer (`"x2"`) is skipped
without consuming, leaving the count at its default. -/
theorem c3_parser_strips_and_rejoins :
    (∀ args, parse_command_args args = parse_command_args_spec args) ∧
    parse_command_args ["-n"] = ("portrait", 1, false, "-n") ∧
    parse_command_args ["a", "-n", "x2", "b"] = ("portrait", 1, false, "a -n x2 b") := by
  refine ⟨parse_eq_spec, ?_, ?_⟩
  · rw [parse_eq_spec]
    simp [parse_command_args_spec, stripRecognizedFlags, pyLower, joinSpace]
  · rw [parse_eq_spec]
    simp [parse_command_args_spec, stripRecognizedFlags, pyLower, pyInt?, digitsOk,
      digitsOkAux, isAsciiDigit, joinSpace]

/-- C4: the image count returned by the parser always lies in [1,10];
`-n 0` clamps to 1, `-n 15` clamps to 10, and `-n abc` leaves the count
at the default 1 (the embedding is total, so no exception is possible). -/
theorem c4_count_clamped :
    (∀ args, 1 ≤ (parse_command_args args).2.1 ∧ (parse_command_args args).2.1 ≤ 10) ∧
    (parse_command_args ["-n", "0"]).2.1 = 1 ∧
    (parse_command_args ["-n", "15"]).2.1 = 10 ∧
    (parse_command_args ["-n", "abc"]).2.1 = 1 := by
  refine ⟨?_, ?_, ?_, ?_⟩
  · intro args
    rw [parse_eq_spec]
    have h := strip_count_bounds args "portrait" 1 false (by omega) (by omega)
    simpa [parse_command_args_spec] using h
  · rw [parse_eq_spec]
    simp [parse_command_args_spec, stripRecognizedFlags, pyLower, pyInt?, digitsOk,
      digitsOkAux, isAsciiDigit, digitsToNat, digitVal, clampCount]
  · rw [parse_eq_spec]
    simp [parse_command_args_spec, stripRecognizedFlags, pyLower, pyInt?, digitsOk,
      digitsOkAux, isAsciiDigit, digitsToNat, digitVal, clampCount]
  · rw [parse_eq_spec]
    simp [parse_command_args_spec, stripRecognizedFlags, pyLower, pyInt?, digitsOk,
      digitsOkAux, isAsciiDigit, digitsToNat, digitVal, clampCount]

/-- C5: the parser recognizes orientation flags case-insensitively, the
last orientation flag wins, the orientation defaults to portrait when no
orientation flag appears, and the result is always one of portrait,
landscape, square. -/
theorem c5_orientation_flags :
    (∀ args, (parse_command_args args).1 = "portrait" ∨
      (parse_command_args args).1 = "landscape" ∨
      (parse_command_args args).1 = "square") ∧
    (∀ args, (∀ t ∈ args, isOrientationFlagToken t = false) →
      (parse_command_args args).1 = "portrait") ∧
    (parse_command_args ["--landscape", "--portrait"]).1 = "portrait" ∧
    (parse_command_args ["-L", "cat"]).1 = "landscape" ∧
    (parse_command_args ["--SQUARE", "--Landscape", "cat"]).1 = "landscape" := by
  refine ⟨?_, ?_, ?_, ?_, ?_⟩
  · intro args
    rw [parse_eq_spec]
    have h := strip_orientation_mem args "portrait" 1 false
    simp only [parse_command_args_spec]
    tauto
  · intro args hall
    rw [parse_eq_spec]
    have h := strip_orientation_default args "portrait" 1 false (by
      intro t ht
      have := hall t ht
      simp only [isOrientationFlagToken, Bool.or_eq_false_iff,
        decide_eq_false_iff_not] at this
      tauto)
    simpa [parse_command_args_spec] using h
  · rw [parse_eq_spec]
    simp [parse_command_args_spec, stripRecognizedFlags, pyLower]
  · rw [parse_eq_spec]
    simp [parse_command_args_spec, stripRecognizedFlags, pyLower]
  · rw [parse_eq_spec]
    simp [parse_command_args_spec, stripRecognizedFlags, pyLower]

/-- Witness for C5 at a concrete flag-free input. -/
theorem c5_orientation_flags_witness :
    (parse_command_args ["hello"]).1 = "portrait" :=
  c5_orientation_flags.2.1 ["hello"] (by decide)

/-- C6 counterexample: on the token sequence `["-n", "-l", "5"]` the first
pass yields orientation landscape and count 1 with prompt `"-n 5"`, but
re-running the parser on the re-tokenized output prompt yields orientation
portrait and count 5 — both components differ, so the parser is not
idempotent on its flag set. -/
theorem c6_idempotence_counterexample :
    parse_command_args ["-n", "-l", "5"] = ("landscape", 1, false, "-n 5") ∧
    parse_command_args (pySplit (parse_command_args ["-n", "-l", "5"]).2.2.2) =
      ("portrait", 5, false, "") ∧
    ¬((parse_command_args (pySplit (parse_command_args ["-n", "-l", "5"]).2.2.2)).1 =
        (parse_command_args ["-n", "-l", "5"]).1 ∧
      (parse_command_args (pySplit (parse_command_args ["-n", "-l", "5"]).2.2.2)).2.1 =
        (parse_command_args ["-n", "-l", "5"]).2.1) := by
  have e1 : parse_command_args ["-n", "-l", "5"] = ("landscape", 1, false, "-n 5") := by
    rw [parse_eq_spec]
    simp [parse_command_args_spec, stripRecognizedFlags, pyLower, pyInt?, digitsOk,
      digitsOkAux, isAsciiDigit, digitsToNat, digitVal, clampCount, joinSpace]
  have e3 : pySplit "-n 5" = ["-n", "5"] := by decide
  have e2 : parse_command_args ["-n", "5"] = ("portrait", 5, false, "") := by
    rw [parse_eq_spec]
    simp [parse_command_args_spec, stripRecognizedFlags, pyLower, pyInt?, digitsOk,
      digitsOkAux, isAsciiDigit, digitsToNat, digitVal, clampCount, joinSpace]
  refine ⟨e1, ?_, ?_⟩
  · rw [e1]
    simp only []
    rw [e3, e2]
  · rw [e1]
    simp only []
    rw [e3, e2]
    simp

/-- C6 amended: stripped flags do not reappear, in the following sense:
for a token sequence of nonempty whitespace-free tokens none of which
lowercases to `-n`, re-running the parser on the re-tokenized output
prompt strips nothing — it returns the default orientation and count and
the prompt unchanged.  (The original claim — same orientation and count as
the first pass — fails whenever the first pass consumed a flag, and the
`-n` exclusion is forced by the counterexample, where a kept `-n` consumes
a kept numeric token on the second pass.) -/
theorem c6_reparse_strips_nothing (args : List String)
    (h : ∀ t ∈ args, t ≠ "" ∧ (∀ c ∈ t.data, isPySpace c = false) ∧ pyLower t ≠ "-n") :
    parse_command_args (pySplit (parse_command_args args).2.2.2) =
      ("portrait", 1, false, (parse_command_args args).2.2.2) := by
  rw [parse_eq_spec args]
  have hkept := strip_kept_sub args "portrait" 1 false (fun t ht => (h t ht).2.2)
  have hsplit : pySplit (joinSpace (stripRecognizedFlags args "portrait" 1 false).2.2.2) =
      (stripRecognizedFlags args "portrait" 1 false).2.2.2 :=
    pySplit_joinSpace _ (fun t ht =>
      ⟨(h t (hkept t ht).1).1, (h t (hkept t ht).1).2.1⟩)
  have hid : stripRecognizedFlags
      (stripRecognizedFlags args "portrait" 1 false).2.2.2 "portrait" 1 false =
      ("portrait", 1, false, (stripRecognizedFlags args "portrait" 1 false).2.2.2) :=
    strip_id_of_unrecognized _ _ _ _ (fun t ht => (hkept t ht).2)
  simp only [parse_command_args_spec]
  rw [hsplit, parse_eq_spec]
  simp only [parse_command_args_spec]
  rw [hid]

/-- Witness for C6 amended at `["-l", "cat"]`. -/
theorem c6_reparse_strips_nothing_witness :
    parse_command_args (pySplit (parse_command_args ["-l", "cat"]).2.2.2) =
      ("portrait", 1, false, (parse_command_args ["-l", "cat"]).2.2.2) :=
  c6_reparse_strips_nothing ["-l", "cat"] (by decide)

/-- C7: for every model id, square orientation yields 1024x1024 regardless
of family; landscape yields width > height and portrait height > width;
the landscape pair is the transpose of the portrait pair within each
family; and the `bfl` (reference-capable) family uses a different pixel
pair from every other family. -/
theorem c7_dimension_resolver :
    (∀ (model_id orientation : String), pyLower orientation = "square" →
      get_dimensions model_id orientation = (1024, 1024)) ∧
    (∀ (model_id orientation : String), pyLower orientation = "landscape" →
      (get_dimensions model_id orientation).1 > (get_dimensions model_id orientation).2) ∧
    (∀ (model_id orientation : String), pyLower orientation = "portrait" →
      (get_dimensions model_id orientation).2 > (get_dimensions model_id orientation).1) ∧
    (∀ model_id, get_dimensions model_id "landscape" =
      ((get_dimensions model_id "portrait").2, (get_dimensions model_id "portrait").1)) ∧
    (∀ m1 m2, strContains m1 "bfl" = true → strContains m2 "bfl" = false →
      get_dimensions m1 "landscape" ≠ get_dimensions m2 "landscape" ∧
      get_dimensions m1 "portrait" ≠ get_dimensions m2 "portrait") := by
  refine ⟨?_, ?_, ?_, ?_, ?_⟩
  · intro model_id orientation h
    simp [get_dimensions, h]
  · intro model_id orientation h
    cases hb : strContains model_id "bfl" <;> simp [get_dimensions, h, hb]
  · intro model_id orientation h
    cases hb : strContains model_id "bfl" <;> simp [get_dimensions, h, hb]
  · intro model_id
    cases hb : strContains model_id "bfl" <;> simp [get_dimensions, pyLower, hb]
  · intro m1 m2 h1 h2
    simp [get_dimensions, pyLower, h1, h2]

/-- Witness for C7 at concrete model ids and orientations. -/
theorem c7_dimension_resolver_witness :
    get_dimensions "runware:101@1" "SQUARE" = (1024, 1024) ∧
    (get_dimensions "bfl:3@1" "landscape").1 > (get_dimensions "bfl:3@1" "landscape").2 ∧
    (get_dimensions "runware:101@1" "portrait").2 >
      (get_dimensions "runware:101@1" "portrait").1 ∧
    get_dimensions "bfl:3@1" "landscape" ≠ get_dimensions "runware:101@1" "landscape" :=
  ⟨c7_dimension_resolver.1 "runware:101@1" "SQUARE" (by decide),
   c7_dimension_resolver.2.1 "bfl:3@1" "landscape" (by decide),
   c7_dimension_resolver.2.2.1 "runware:101@1" "portrait" (by decide),
   (c7_dimension_resolver.2.2.2.2 "bfl:3@1" "runware:101@1" (by decide) (by decide)).1⟩

/-- C1 counterexample: a status-200 response that is an object with an
error-free top level but whose `data` element carries an `error` key —
alongside a matching inference result — does not yield failure: the code
proceeds to the download and returns image bytes. -/
theorem c1_nested_error_counterexample :
    (RItem.mk [("taskType", "imageInference"), ("taskUUID", "tok"),
      ("imageURL", "http-img"), ("error", "boom")]).hasKey "error" = true ∧
    generate_image 200 "tok"
      (RResp.obj (RItem.mk [])
        [RItem.mk [("taskType", "imageInference"), ("taskUUID", "tok"),
          ("imageURL", "http-img"), ("error", "boom")]])
      (fun _ => some "IMAGEBYTES") = some "IMAGEBYTES" := by
  constructor
  · rfl
  · rfl

/-- C1 amended: an `error` key at the top level of the response — as a key
of the top-level object, or of any element of a top-level list — yields
failure regardless of status; an `error` key nested inside an element of
the object's `data` list is not checked (see the counterexample). -/
theorem c1_top_level_error_failure (status : Nat) (taskUuid : String)
    (resp : RResp) (download : String → Option String)
    (h : hasTopError resp = true) :
    generate_image status taskUuid resp download = none := by
  by_cases hs : status ≠ 200
  · simp [generate_image, hs]
  · simp [generate_image, hs, h]

/-- Witness for C1 amended: a top-level list element carrying `error`. -/
theorem c1_top_level_error_failure_witness :
    generate_image 200 "tok" (RResp.arr [RItem.mk [("error", "x")]])
      (fun _ => some "B") = none :=
  c1_top_level_error_failure 200 "tok" (RResp.arr [RItem.mk [("error", "x")]])
    (fun _ => some "B") (by decide)

/-- C8: `generate_image` succeeds only when the response passes the status
and top-level error checks and contains an element whose `taskType` is
`"imageInference"`, whose `taskUUID` equals the correlation token of this
call, and which carries a non-empty `imageURL` that the download resolves;
and in particular a status-200 response whose only inference result
carries a different correlation token yields failure. -/
theorem c8_success_requires_matching_item :
    (∀ (status : Nat) (taskUuid : String) (resp : RResp)
        (download : String → Option String) (b : String),
      generate_image status taskUuid resp download = some b →
      status = 200 ∧ hasTopError resp = false ∧
      ∃ it ∈ itemsToCheck resp, it.get "taskType" = some "imageInference" ∧
        it.get "taskUUID" = some taskUuid ∧
        ∃ url, it.get "imageURL" = some url ∧ url ≠ "" ∧ download url = some b) ∧
    generate_image 200 "tok-a"
      (RResp.arr [RItem.mk [("taskType", "imageInference"), ("taskUUID", "tok-b"),
        ("imageURL", "u")]])
      (fun _ => some "B") = none := by
  constructor
  · intro status taskUuid resp download b h
    rw [generate_image] at h
    by_cases hs : status ≠ 200
    · rw [if_pos hs] at h
      exact absurd h (by simp)
    · rw [if_neg hs] at h
      by_cases he : hasTopError resp = true
      · rw [if_pos he] at h
        exact absurd h (by simp)
      · rw [if_neg he] at h
        refine ⟨by omega, by simpa using he, ?_⟩
        rcases hf : findImageURL taskUuid (itemsToCheck resp) with _ | url
        · rw [hf] at h
          exact absurd h (by simp)
        · rw [hf] at h
          simp only [] at h
          obtain ⟨it, hmem, ht, hu, hurl, hne⟩ := findImageURL_sound taskUuid _ url hf
          exact ⟨it, hmem, ht, hu, url, hurl, hne, h⟩
  · rfl

/-- Witness for C8 at a concrete matching response. -/
theorem c8_success_requires_matching_item_witness :
    (200 : Nat) = 200 ∧
    hasTopError (RResp.arr [RItem.mk [("taskType", "imageInference"),
      ("taskUUID", "tok"), ("imageURL", "u")]]) = false ∧
    ∃ it ∈ itemsToCheck (RResp.arr [RItem.mk [("taskType", "imageInference"),
        ("taskUUID", "tok"), ("imageURL", "u")]]),
      it.get "taskType" = some "imageInference" ∧
      it.get "taskUUID" = some "tok" ∧
      ∃ url, it.get "imageURL" = some url ∧ url ≠ "" ∧
        (fun (_ : String) => some "B") url = some "B" :=
  c8_success_requires_matching_item.1 200 "tok"
    (RResp.arr [RItem.mk [("taskType", "imageInference"), ("taskUUID", "tok"),
      ("imageURL", "u")]])
    (fun _ => some "B") "B" (by rfl)

/-- C10: for every model in the fixed registry, the job payload carries a
reference image iff reference bytes were supplied (a non-empty base64
string) and the model's supports-reference flag is true; when attached it
is the raw supplied string, unmodified (no data-URI), and when not
attached the payload carries no referenceImages field (`none`). -/
theorem c10_reference_attachment (e : String × ModelCfg) (he : e ∈ MODELS)
    (prompt orientation taskUuid : String) (ref : Option String) :
    ((buildInferenceTask prompt e.2.id orientation taskUuid ref).referenceImages ≠ none ↔
      ∃ r, ref = some r ∧ r ≠ "" ∧ e.2.supports_reference = true) ∧
    (∀ r, ref = some r → r ≠ "" → e.2.supports_reference = true →
      (buildInferenceTask prompt e.2.id orientation taskUuid ref).referenceImages =
        some [r]) := by
  simp only [ MODELS, List.mem_cons, List.mem_singleton, List.not_mem_nil] at he
  rcases he with rfl | rfl | rfl | rfl | rfl | h <;>
    first
    | (cases ref with
       | none => simp [buildInferenceTask]
       | some r =>
         by_cases hr : r = "" <;>
           simp [buildInferenceTask, hr, charsContain, charsStartWith, strContains])
    | exact absurd h (by simp)

/-- Witness for C10 at the kontext registry entry with a supplied
reference. -/
theorem c10_reference_attachment_witness :
    (buildInferenceTask "p" ("kontext", ModelCfg.mk "bfl:3@1" "Kontext Pro" true).2.id
      "portrait" "uuid" (some "QUJD")).referenceImages = some ["QUJD"] :=
  (c10_reference_attachment ("kontext", ModelCfg.mk "bfl:3@1" "Kontext Pro" true)
    (by simp [ MODELS]) "p" "portrait" "uuid" (some "QUJD")).2 "QUJD" rfl
    (by decide) rfl

/-- C2: in the generation loop over iterations 0..N-1 (the claim's
i = 1..N shifted to 0-based), if every iteration before j succeeds and
iteration j fails (client returns `None`, or an empty string, which is
falsy), the trace is exactly j delivered photos, then the failing call,
then the progress message edited to the failure notice — the message is
not deleted and no later iteration is attempted; if all N iterations
succeed, all N photos are delivered and the progress message is
deleted. -/
theorem c2_generation_loop_fail_fast :
    (∀ (numImages : Nat) (gen : Nat → Option String) (j : Nat),
      j < numImages →
      (∀ l, l < j → ∃ s, gen l = some s ∧ s ≠ "") →
      (gen j = none ∨ gen j = some "") →
      genLoop gen numImages 0 =
        ((List.range j).map
          (fun l => [DirectEvent.genCall l, DirectEvent.photo l])).flatten ++
          [DirectEvent.genCall j, DirectEvent.failNotice]) ∧
    (∀ (numImages : Nat) (gen : Nat → Option String),
      (∀ l, l < numImages → ∃ s, gen l = some s ∧ s ≠ "") →
      genLoop gen numImages 0 =
        ((List.range numImages).map
          (fun l => [DirectEvent.genCall l, DirectEvent.photo l])).flatten ++
          [DirectEvent.progressDeleted]) := by
  constructor
  · intro numImages gen j hj hok hfail
    have h := genLoop_fail numImages 0 j gen (Nat.zero_le j) (by omega)
      (fun l _ hl => hok l hl) hfail
    rw [List.range_eq_range']
    simpa using h
  · intro numImages gen hok
    have h := genLoop_all_ok numImages 0 gen (fun l _ hl => hok l (by omega))
    rw [List.range_eq_range']
    simpa using h

/-- Witness for C2: three requested images with a failure at the second
iteration, and two requested images with full success. -/
theorem c2_generation_loop_fail_fast_witness :
    genLoop (fun l => if l = 0 then some "img" else none) 3 0 =
      [DirectEvent.genCall 0, DirectEvent.photo 0,
       DirectEvent.genCall 1, DirectEvent.failNotice] ∧
    genLoop (fun _ => some "img") 2 0 =
      [DirectEvent.genCall 0, DirectEvent.photo 0,
       DirectEvent.genCall 1, DirectEvent.photo 1, DirectEvent.progressDeleted] := by
  constructor
  · have h := c2_generation_loop_fail_fast.1 3 (fun l => if l = 0 then some "img" else none)
      1 (by omega)
      (fun l hl => ⟨"img", by
        have hl0 : l = 0 := by omega
        subst hl0
        rfl, by decide⟩)
      (Or.inl rfl)
    simpa using h
  · have h := c2_generation_loop_fail_fast.2 2 (fun _ => some "img")
      (fun l _ => ⟨"img", rfl, by decide⟩)
    simpa using h

/-- C9: in the direct-generation path, an empty argument list or an empty
parsed prompt yields only the usage hint — no progress message is sent
and no generation call is made. -/
theorem c9_validation_before_network (args : List String) (gen : Nat → Option String)
    (h : args = [] ∨ (parse_command_args args).2.2.2 = "") :
    generate_image_direct args gen = [DirectEvent.usageHint] ∧
    DirectEvent.progressMsg ∉ generate_image_direct args gen ∧
    (∀ i, DirectEvent.genCall i ∉ generate_image_direct args gen) := by
  have he : generate_image_direct args gen = [DirectEvent.usageHint] := by
    by_cases ha : args = []
    · simp [generate_image_direct, ha]
    · rcases h with h | h
      · exact absurd h ha
      · simp [generate_image_direct, ha, h]
  exact ⟨he, by simp [he], by simp [he]⟩

/-- Witness for C9 at the spec's example `"-l -s"`, which strips to an
empty prompt. -/
theorem c9_validation_before_network_witness :
    generate_image_direct ["-l", "-s"] (fun _ => some "x") = [DirectEvent.usageHint] :=
  (c9_validation_before_network ["-l", "-s"] (fun _ => some "x")
    (Or.inr (by
      rw [parse_eq_spec]
      simp [parse_command_args_spec, stripRecognizedFlags, pyLower, joinSpace]))).1
